import Mathlib

/-!
Verification of the API-key authentication / permission / usage-tracking
pipeline of the Hack-CBS backend (Express + Mongoose), as a shallow
embedding in Lean 4.

Conventions of the embedding:
* JS strings become Lean `String`; JS string primitives (`startsWith`,
  `substring`, regexp tests) are modelled on the underlying `.data`
  character list.
* A missing request header (`undefined` in JS) is `Option.none`; JS
  truthiness of a header value (`!apiKey`) is `isTruthyStr`.
* Mongoose queries on the `ApiKey` collection are modelled as list
  lookups over a store of `ApiKeyRecord`s; `populate("projectId")` is
  modelled by the record carrying an `Option Nat` project reference that
  is `none` when the referenced project no longer exists.
* The awaited `keyDoc.save()` call is modelled by a `saveOk : Bool`
  parameter saying whether persistence succeeds; an exception thrown by
  the awaited save lands in the surrounding `catch` block, which the
  embedding reproduces explicitly.
* Middleware outcomes (`next()` versus `res.status(...).json({...})`)
  become small inductive result types carrying the HTTP status and the
  `error` tag of the JSON body.
-/

namespace HackCBS

/-- JS truthiness of a possibly-missing header string: `undefined` and
the empty string are falsy, every other string is truthy. -/
def isTruthyStr : Option String → Bool
  | none => false
  | some s => !(s == "")

/-- Model of JS `s.startsWith(p)`. -/
def jsStartsWith (s p : String) : Bool :=
  decide (s.data.take p.data.length = p.data)

/-- Model of JS `s.substring(n)` (drop the first `n` characters). -/
def jsDrop (s : String) (n : Nat) : String :=
  String.mk (s.data.drop n)

/-- Character class `[a-f0-9]` used by the key / id regular expressions. -/
def isLowerHex (c : Char) : Bool :=
  (('0' ≤ c) && (c ≤ '9')) || (('a' ≤ c) && (c ≤ 'f'))

/-- Model of the anchored JS regexp test `/^[a-f0-9]{24}$/` used for
project ids. -/
def isHex24 (s : String) : Bool :=
  (s.data.length == 24) && s.data.all isLowerHex

/-! ## Key Generator — src/src/utils/apiKeyGenerator.js -/

/-- One lowercase hex digit for a nibble value. -/
def hexDigit (n : Nat) : Char :=
  if n < 10 then Char.ofNat (Char.toNat '0' + n)
  else Char.ofNat (Char.toNat 'a' + (n - 10))

/-- Hex encoding of one byte, high nibble first, as produced by Node's
`Buffer.toString("hex")`.  The `% 16` is redundant for genuine bytes
(`b < 256`) but keeps the function total on `Nat`. -/
def byteToHex (b : Nat) : List Char :=
  [hexDigit (b / 16 % 16), hexDigit (b % 16)]

/-- Hex encoding of a byte sequence. -/
def bytesToHex (bs : List Nat) : List Char :=
  (bs.map byteToHex).flatten

/-- `generateApiKey(prefix, length)` from apiKeyGenerator.js:
`` `${prefix}_${crypto.randomBytes(length).toString("hex")}` ``.
The nondeterministic `crypto.randomBytes(length)` is modelled by the
drawn byte list `bytes` (so the byte length of the call is
`bytes.length`); the first source parameter is modelled as `pfx`. -/
def generateApiKey (pfx : String) (bytes : List Nat) : String :=
  pfx ++ "_" ++ String.mk (bytesToHex bytes)

/-- `isValidApiKeyFormat` from apiKeyGenerator.js: the anchored regexp
test `/^pk_(live|test)_[a-f0-9]{64}$/.test(apiKey)` (the non-string /
null guard of the source is outside the `String` domain of the model). -/
def isValidApiKeyFormat (s : String) : Bool :=
  (jsStartsWith s "pk_live_" || jsStartsWith s "pk_test_") &&
    ((jsDrop s 8).data.length == 64) && (jsDrop s 8).data.all isLowerHex

/-- `getApiKeyPrefix` from apiKeyGenerator.js (the spec's
`extractEnvTag`; renamed here because of the last word of the source
name): `null` unless the key is well-formed, else the captured group of
`/^pk_(live|test)_/`, i.e. `"live"` or `"test"`. -/
def getApiKeyEnvTag (s : String) : Option String :=
  if isValidApiKeyFormat s then
    if jsStartsWith s "pk_live_" then some "live" else some "test"
  else none

/-- `maskApiKey` from apiKeyGenerator.js:
`"***"` for non-strings / strings shorter than 12, else
`apiKey.substring(0, 8) + "..." + apiKey.substring(apiKey.length - 4)`. -/
def maskApiKey (s : String) : String :=
  if s.data.length < 12 then "***"
  else String.mk (s.data.take 8 ++ ['.', '.', '.'] ++ s.data.drop (s.data.length - 4))

/-! ## Key Store — models/ApiKey.js (as returned by
`findOne(...).populate("projectId")`) -/

/-- A stored API key document.  `projectId` is the populated project
reference: `none` models a dangling reference (populate returned null). -/
structure ApiKeyRecord where
  _id : Nat
  key : String
  permissions : List String
  isActive : Bool
  projectId : Option Nat
  lastUsed : Option Int
deriving DecidableEq

/-- The query `ApiKey.findOne({ key: apiKey, isActive: true })`:
first stored record whose `key` matches and whose `isActive` is true. -/
def findActiveKey (store : List ApiKeyRecord) (k : String) : Option ApiKeyRecord :=
  store.find? (fun r => (r.key == k) && r.isActive)

/-! ## Weak (format-only) gates — middleware/apiKeyAuth.js, first part -/

/-- The two headers read by the weak gates. -/
structure WeakReq where
  xApiKey : Option String
  xProjectId : Option String
deriving DecidableEq

/-- Outcome of `validateApiKey`: an error response, or `next()` with the
raw header strings stored on the request (`req.apiKey = apiKey;
req.projectId = projectId`). -/
inductive WeakOutcome where
  | err (status : Nat) (error : String)
  | next (apiKey : String) (projectId : String)
deriving DecidableEq

/-- `validateApiKey` from middleware/apiKeyAuth.js: header presence,
then `pk_live_` / `pk_test_` shape of the key, then 24-hex shape of the
project id; no store lookup at all. -/
def validateApiKey (req : WeakReq) : WeakOutcome :=
  if !(isTruthyStr req.xApiKey) then .err 401 "API key required"
  else if !(isTruthyStr req.xProjectId) then .err 401 "Project ID required"
  else
    let k := req.xApiKey.getD ""
    let p := req.xProjectId.getD ""
    if !(jsStartsWith k "pk_live_" || jsStartsWith k "pk_test_") then
      .err 401 "Invalid API key format"
    else if !(isHex24 p) then .err 401 "Invalid Project ID format"
    else .next k p

/-- `optionalApiKey` from middleware/apiKeyAuth.js: always calls
`next()`; returns the `(req.apiKey, req.projectId)` pair it attached,
if any (attached exactly when both headers are truthy and well shaped). -/
def optionalApiKey (req : WeakReq) : Option (String × String) :=
  if isTruthyStr req.xApiKey && isTruthyStr req.xProjectId then
    let k := req.xApiKey.getD ""
    let p := req.xProjectId.getD ""
    if jsStartsWith k "pk_live_" || jsStartsWith k "pk_test_" then
      if isHex24 p then some (k, p) else none
    else none
  else none

/-! ## Strict (store-backed) gates — middleware/apiKeyAuth.js, second part -/

/-- Outcome of `apiKeyAuth`: an error response, or `next()` with the
resolved key document (after its `lastUsed` mutation) and the populated
project id attached to the request. -/
inductive AuthOutcome where
  | err (status : Nat) (error : String)
  | ok (keyDoc : ApiKeyRecord) (projectId : Nat)
deriving DecidableEq

/-- `apiKeyAuth` from middleware/apiKeyAuth.js.  `hdr` is the
`x-api-key` header, `saveOk` is whether the awaited `keyDoc.save()`
persisting `lastUsed = new Date()` succeeds (a rejection is caught by
the surrounding try/catch, which answers 500 "Authentication error"),
`now` is the clock value used for `new Date()`. -/
def apiKeyAuth (store : List ApiKeyRecord) (hdr : Option String)
    (saveOk : Bool) (now : Int) : AuthOutcome :=
  if !(isTruthyStr hdr) then .err 401 "API key required"
  else
    match findActiveKey store (hdr.getD "") with
    | none => .err 401 "Invalid or inactive API key"
    | some keyDoc =>
      match keyDoc.projectId with
      | none => .err 401 "Associated project not found"
      | some pid =>
        if !saveOk then .err 500 "Authentication error"
        else .ok { keyDoc with lastUsed := some now } pid

/-- Outcome of `optionalApiKeyAuth`: an error response, `next()` with
nothing attached (missing header), or `next()` with key and project
attached. -/
inductive OptAuthOutcome where
  | err (status : Nat) (error : String)
  | okAnon
  | okAuth (keyDoc : ApiKeyRecord) (projectId : Nat)
deriving DecidableEq

/-- `optionalApiKeyAuth` from middleware/apiKeyAuth.js: a missing
header short-circuits to `next()` with nothing attached; a present
header goes through exactly the strict resolution (including the
awaited `lastUsed` save). -/
def optionalApiKeyAuth (store : List ApiKeyRecord) (hdr : Option String)
    (saveOk : Bool) (now : Int) : OptAuthOutcome :=
  if !(isTruthyStr hdr) then .okAnon
  else
    match findActiveKey store (hdr.getD "") with
    | none => .err 401 "Invalid or inactive API key"
    | some keyDoc =>
      match keyDoc.projectId with
      | none => .err 401 "Associated project not found"
      | some pid =>
        if !saveOk then .err 500 "Authentication error"
        else .okAuth { keyDoc with lastUsed := some now } pid

/-! ## Permission gate — middleware/apiKeyAuth.js `checkApiKeyPermissions` -/

/-- The value found at `req.apiKey` when the permission gate runs:
nothing, a resolved key document (strict gates), or the raw header
string (weak gate `validateApiKey`). -/
inductive Attached where
  | nothing
  | record (r : ApiKeyRecord)
  | rawKey (s : String)
deriving DecidableEq

/-- JS truthiness of `req.apiKey`: `undefined` is falsy, a document is
truthy, a string is truthy iff nonempty. -/
def isTruthyAtt : Attached → Bool
  | .nothing => false
  | .record _ => true
  | .rawKey s => !(s == "")

/-- Outcome of the permission gate. -/
inductive PermOutcome where
  | next
  | forbidden (required current : List String)
  | serverError (status : Nat) (error : String)
deriving DecidableEq

/-- `checkApiKeyPermissions(requiredPermissions)` from
middleware/apiKeyAuth.js: falsy `req.apiKey` or empty requirement list
allow; otherwise `requiredPermissions.every(p =>
req.apiKey.permissions.includes(p))` decides between `next()` and the
403 body carrying `required` and `current`.  When `req.apiKey` is a raw
string, `req.apiKey.permissions` is `undefined` and the `.includes`
call throws, landing in the catch block: 500 "Permission check error". -/
def checkApiKeyPermissions (required : List String) (att : Attached) : PermOutcome :=
  if !(isTruthyAtt att) then .next
  else if required.isEmpty then .next
  else
    match att with
    | .record r =>
      if required.all (fun p => r.permissions.contains p) then .next
      else .forbidden required r.permissions
    | .rawKey _ => .serverError 500 "Permission check error"
    | .nothing => .next

/-- Injection of the strict gates' context (no key, or a resolved key
document) into `Attached`. -/
def attachedOf : Option ApiKeyRecord → Attached
  | none => .nothing
  | some r => .record r

/-! ## Usage Recorder — src/src/utils/apiKeyGenerator.js second part
(`trackUsage`, `trackUsageWithMetadata`) -/

/-- The document handed to `UsageLog.create` (models/UsageLog.js
fields).  `apiKeyId` is `req.apiKey._id`, which is `none` (JS
`undefined`) when the attached value is a raw string; `extra` is the
caller-supplied metadata spread into the `metadata` bag by
`trackUsageWithMetadata`. -/
structure UsageRec where
  apiKeyId : Option Nat
  projectId : Nat
  endpoint : String
  method : String
  statusCode : Nat
  responseTime : Nat
  timestamp : Int
  userAgent : String
  ip : String
  errorMessage : Option String
  requestSize : Nat
  responseSize : Nat
  extra : List (String × String)
deriving DecidableEq

/-- `req.apiKey._id` under the three possible attachments. -/
def attachedId : Attached → Option Nat
  | .record r => some r._id
  | _ => none

/-- `trackUsage` from apiKeyGenerator.js, observed at response
completion (the overridden `res.end`): the list of documents submitted
to `UsageLog.create` for this request — one document when both
`req.apiKey` and `req.projectId` are truthy, none otherwise.
`pid` models `req.projectId` (present or absent), `now` the `new
Date()` timestamp, `rt` the computed response time. -/
def trackUsage (att : Attached) (pid : Option Nat) (path method : String)
    (status rt : Nat) (now : Int) (ua ip : String) (reqSz respSz : Nat) :
    List UsageRec :=
  if isTruthyAtt att && pid.isSome then
    [{ apiKeyId := attachedId att
       projectId := pid.getD 0
       endpoint := path
       method := method
       statusCode := status
       responseTime := rt
       timestamp := now
       userAgent := ua
       ip := ip
       errorMessage := if 400 ≤ status then some ("HTTP " ++ toString status) else none
       requestSize := reqSz
       responseSize := respSz
       extra := [] }]
  else []

/-- `trackUsageWithMetadata(customMetadata)` from apiKeyGenerator.js:
same completion hook with the caller-supplied metadata spread into the
`metadata` bag (`...req.trackingMetadata, ...customMetadata`, and
`req.trackingMetadata` was set to `customMetadata` at request start). -/
def trackUsageWithMetadata (custom : List (String × String)) (att : Attached)
    (pid : Option Nat) (path method : String) (status rt : Nat) (now : Int)
    (ua ip : String) (reqSz respSz : Nat) : List UsageRec :=
  if isTruthyAtt att && pid.isSome then
    [{ apiKeyId := attachedId att
       projectId := pid.getD 0
       endpoint := path
       method := method
       statusCode := status
       responseTime := rt
       timestamp := now
       userAgent := ua
       ip := ip
       errorMessage := if 400 ≤ status then some ("HTTP " ++ toString status) else none
       requestSize := reqSz
       responseSize := respSz
       extra := custom }]
  else []

/-! ## Usage Aggregator — src/src/routes/usage.js `GET /stats/:projectId` -/

/-- A stored usage log entry, with the fields the stats route queries.
`timestamp` is milliseconds since the epoch. -/
structure UsageEntry where
  projectId : Nat
  endpoint : String
  statusCode : Nat
  responseTime : Nat
  timestamp : Int
deriving DecidableEq

/-- The `switch (period)` of the stats route: days subtracted from now
(`1d`/`7d`/`30d`/`90d`, anything else 30). -/
def periodDays (period : String) : Nat :=
  if period == "1d" then 1
  else if period == "7d" then 7
  else if period == "30d" then 30
  else if period == "90d" then 90
  else 30

/-- `startDate` of the stats route, with `setDate(getDate() - n)`
modelled as subtracting `n` 24-hour days (86400000 ms) from `now`. -/
def periodStart (period : String) (now : Int) : Int :=
  now - (periodDays period : Int) * 86400000

/-- `UsageLog.countDocuments({ projectId, timestamp: { $gte: startDate } })`
— the `totalCalls` statistic.  Note the query has no upper bound on
`timestamp`. -/
def statsTotalCalls (logs : List UsageEntry) (pid : Nat) (start : Int) : Nat :=
  (logs.filter (fun r => (r.projectId == pid) && decide (start ≤ r.timestamp))).length

/-- Insertion step of the descending-by-timestamp sort. -/
def insertByTs (r : UsageEntry) : List UsageEntry → List UsageEntry
  | [] => [r]
  | x :: xs => if x.timestamp ≤ r.timestamp then r :: x :: xs else x :: insertByTs r xs

/-- Model of the Mongo `.sort({ timestamp: -1 })`: sort descending by
timestamp (insertion sort). -/
def sortByTsDesc : List UsageEntry → List UsageEntry
  | [] => []
  | x :: xs => insertByTs x (sortByTsDesc xs)

/-- `recentActivity` of the stats route:
`UsageLog.find({ projectId }).sort({ timestamp: -1 }).limit(10)` —
the ten newest entries of the project, with no timestamp condition. -/
def recentActivity (logs : List UsageEntry) (pid : Nat) : List UsageEntry :=
  (sortByTsDesc (logs.filter (fun r => r.projectId == pid))).take 10

/-! ## Retention — models/UsageLog.js TTL index -/

/-- The schema's TTL declaration:
`usageLogSchema.index({ timestamp: 1 }, { expireAfterSeconds: 90 * 24 * 60 * 60 })`. -/
def usageLogTTLSeconds : Nat := 90 * 24 * 60 * 60

/-- Modelled from the spec: the store-level TTL expiry semantics (the
database's background expiry sweep) is not application code of this
repository.  Per the spec, a record "expires within a bounded grace
period after 90 days": at time `now`, with sweep lag at most `grace`
milliseconds, the store still returns exactly the records whose
expiry instant `timestamp + TTL` is less than `grace` old. -/
def visibleAt (grace now : Int) (logs : List UsageEntry) : List UsageEntry :=
  logs.filter (fun r => decide (now < r.timestamp + (usageLogTTLSeconds : Int) * 1000 + grace))

/-! ## Concrete instances used by counterexamples and witnesses -/

/-- A well-formed live-tier secret (64 hex zeros). -/
def k0 : String := "pk_live_" ++ String.mk (List.replicate 64 '0')

/-- A well-formed 24-hex-character project id. -/
def p0 : String := String.mk (List.replicate 24 'a')

/-- A stored key record holding the secret `k0` with `isActive = false`. -/
def r0 : ApiKeyRecord :=
  { _id := 1, key := k0, permissions := ["auth"], isActive := false,
    projectId := some 7, lastUsed := none }

/-- A stored key record holding the secret `k0` with `isActive = true`. -/
def r1 : ApiKeyRecord :=
  { _id := 2, key := k0, permissions := ["auth"], isActive := true,
    projectId := some 7, lastUsed := none }

/-- A usage log entry of project 1 with epoch timestamp 0. -/
def eOld : UsageEntry :=
  { projectId := 1, endpoint := "/x", statusCode := 200, responseTime := 3, timestamp := 0 }

end HackCBS

namespace HackCBS

/-! ## C1 — inactive keys versus the two authentication variants -/

/-- C1 counterexample.  The claim says every authentication attempt,
strict or weak, presenting the secret of a key record with
`active = false` fails with 401 InvalidKey.  The weak variant
`validateApiKey` performs no store lookup: presented the well-formed
secret `k0` of the inactive record `r0` (which exists in the store), it
calls `next()` and attaches the raw secret — it does not fail at all —
while the strict variant does answer 401. -/
theorem validateApiKey_inactive_passes_cex :
    isValidApiKeyFormat k0 = true ∧ r0 ∈ [r0] ∧ r0.key = k0 ∧ r0.isActive = false ∧
    validateApiKey { xApiKey := some k0, xProjectId := some p0 } = .next k0 p0 := by
  decide

/-- C1 amended: the STRICT variant rejects any secret whose store
records are all inactive with 401 "Invalid or inactive API key", while
the weak variant `validateApiKey` accepts any shape-valid key/project
header pair without consulting the store (so inactivity cannot fail
it). -/
theorem inactiveKey_auth_amended :
    (∀ (store : List ApiKeyRecord) (k : String) (saveOk : Bool) (now : Int),
      k ≠ "" → (∀ r ∈ store, r.key = k → r.isActive = false) →
      apiKeyAuth store (some k) saveOk now = .err 401 "Invalid or inactive API key") ∧
    (∀ k p : String,
      (jsStartsWith k "pk_live_" || jsStartsWith k "pk_test_") = true →
      isHex24 p = true →
      validateApiKey { xApiKey := some k, xProjectId := some p } = .next k p) := by
  constructor
  · intro store k saveOk now hk hstore
    have hfind : findActiveKey store k = none := by
      apply List.find?_eq_none.mpr
      intro r hr
      simp only [Bool.and_eq_true, beq_iff_eq, not_and]
      intro hkey
      simp [hstore r hr hkey]
    simp [apiKeyAuth, isTruthyStr, hk, hfind]
  · intro k p hstart hhex
    have hk : k ≠ "" := by
      intro h
      subst h
      revert hstart
      decide
    have hp : p ≠ "" := by
      intro h
      subst h
      revert hhex
      decide
    simp [validateApiKey, isTruthyStr, hk, hp, hstart, hhex]

/-- C1 witness: the amended theorem applied at the concrete store
`[r0]`, secret `k0`, project id `p0`. -/
theorem inactiveKey_auth_amended_witness :
    apiKeyAuth [r0] (some k0) true 0 = .err 401 "Invalid or inactive API key" ∧
    validateApiKey { xApiKey := some k0, xProjectId := some p0 } = .next k0 p0 := by
  refine ⟨inactiveKey_auth_amended.1 [r0] k0 true 0 (by decide) ?_,
    inactiveKey_auth_amended.2 k0 p0 (by decide) (by decide)⟩
  intro r hr hkey
  have : r = r0 := by simpa using hr
  subst this
  decide

/-! ## C2 — the lastUsed update is awaited, not fire-and-forget -/

/-- C2 counterexample.  The claim says a failure to persist the
`lastUsed` timestamp never causes the request to fail and is not
awaited.  In the source the handler runs `await keyDoc.save()` before
`next()`, inside the try/catch: with the valid active key `r1` resolved
from the store, a failing save produces a 500 "Authentication error"
response instead of proceeding. -/
theorem apiKeyAuth_saveFailure_fails_cex :
    findActiveKey [r1] k0 = some r1 ∧
    apiKeyAuth [r1] (some k0) false 0 = .err 500 "Authentication error" := by
  decide

/-- C2 amended: the `lastUsed` persistence is awaited before the
handler proceeds — when the save succeeds the request proceeds with
`lastUsed` set to the current time, and when the save fails the request
fails with 500 "Authentication error" (in both the strict and optional
store-backed variants). -/
theorem apiKeyAuth_lastUsed_awaited :
    ∀ (store : List ApiKeyRecord) (k : String) (r : ApiKeyRecord) (pid : Nat) (now : Int),
      k ≠ "" → findActiveKey store k = some r → r.projectId = some pid →
      (apiKeyAuth store (some k) false now = .err 500 "Authentication error" ∧
       apiKeyAuth store (some k) true now = .ok { r with lastUsed := some now } pid) ∧
      (optionalApiKeyAuth store (some k) false now = .err 500 "Authentication error" ∧
       optionalApiKeyAuth store (some k) true now = .okAuth { r with lastUsed := some now } pid) := by
  intro store k r pid now hk hfind hpid
  refine ⟨⟨?_, ?_⟩, ?_, ?_⟩ <;>
    simp [apiKeyAuth, optionalApiKeyAuth, isTruthyStr, hk, hfind, hpid]

/-- C2 witness: the amended theorem applied at the concrete store
`[r1]` and secret `k0`. -/
theorem apiKeyAuth_lastUsed_awaited_witness :
    apiKeyAuth [r1] (some k0) false 0 = .err 500 "Authentication error" ∧
    apiKeyAuth [r1] (some k0) true 0 = .ok { r1 with lastUsed := some 0 } 7 := by
  exact (apiKeyAuth_lastUsed_awaited [r1] k0 r1 7 0 (by decide) (by decide) (by decide)).1

/-! ## C3 — optional mode and invalid presented keys -/

/-- C3 counterexample.  The claim says that in optional mode a
presented key that is invalid (not found or inactive) does not fail the
request.  With the store `[r0]` (the record for `k0` is inactive, so
the lookup finds nothing), `optionalApiKeyAuth` answers 401 instead of
proceeding. -/
theorem optionalApiKeyAuth_invalid_401_cex :
    findActiveKey [r0] k0 = none ∧
    optionalApiKeyAuth [r0] (some k0) true 0 = .err 401 "Invalid or inactive API key" := by
  decide

/-- C3 amended: in `optionalApiKeyAuth` only a MISSING key header
proceeds (with no key and no project attached); a presented key that
resolves to no active record fails with 401 "Invalid or inactive API
key" exactly like the strict variant.  The weak `optionalApiKey`
variant never fails and attaches nothing when the presented key does
not have the required shape. -/
theorem optionalAuth_amended :
    (∀ (store : List ApiKeyRecord) (saveOk : Bool) (now : Int),
      optionalApiKeyAuth store none saveOk now = .okAnon) ∧
    (∀ (store : List ApiKeyRecord) (k : String) (saveOk : Bool) (now : Int),
      k ≠ "" → findActiveKey store k = none →
      optionalApiKeyAuth store (some k) saveOk now = .err 401 "Invalid or inactive API key") ∧
    (∀ k p : String,
      (jsStartsWith k "pk_live_" || jsStartsWith k "pk_test_") = false →
      optionalApiKey { xApiKey := some k, xProjectId := some p } = none) := by
  refine ⟨?_, ?_, ?_⟩
  · intro store saveOk now
    simp [optionalApiKeyAuth, isTruthyStr]
  · intro store k saveOk now hk hfind
    simp [optionalApiKeyAuth, isTruthyStr, hk, hfind]
  · intro k p hshape
    simp [optionalApiKey, hshape]

/-- C3 witness: the amended theorem applied at the concrete store
`[r0]` and secret `k0`, and at a shapeless key. -/
theorem optionalAuth_amended_witness :
    optionalApiKeyAuth [r0] none true 0 = .okAnon ∧
    optionalApiKeyAuth [r0] (some k0) true 0 = .err 401 "Invalid or inactive API key" ∧
    optionalApiKey { xApiKey := some "zzz", xProjectId := some p0 } = none := by
  exact ⟨optionalAuth_amended.1 [r0] true 0,
    optionalAuth_amended.2.1 [r0] k0 true 0 (by decide) (by decide),
    optionalAuth_amended.2.2 "zzz" p0 (by decide)⟩

/-! ## C4 — the permission gate's allow/deny characterization -/

/-- Reduction of the gate on a resolved key document. -/
theorem checkPerms_record (required : List String) (r : ApiKeyRecord) :
    checkApiKeyPermissions required (.record r) =
      if required.isEmpty then .next
      else if required.all (fun p => r.permissions.contains p) then .next
      else .forbidden required r.permissions := by
  simp [checkApiKeyPermissions, isTruthyAtt]

/-- C4: on a context whose attachment is absent or a resolved key
document, the gate allows iff no key is attached, or the required list
is empty, or every required capability is among the key's stored
`permissions`; and every denial is the 403 outcome whose `required`
field is the required list and whose `current` field is exactly the
key's stored permission list. -/
theorem checkApiKeyPermissions_spec :
    ∀ (required : List String) (o : Option ApiKeyRecord),
      (checkApiKeyPermissions required (attachedOf o) = .next ↔
        (o = none ∨ required = [] ∨
          ∃ r, o = some r ∧ ∀ p ∈ required, p ∈ r.permissions)) ∧
      (∀ r : ApiKeyRecord, o = some r →
        checkApiKeyPermissions required (attachedOf o) ≠ .next →
        checkApiKeyPermissions required (attachedOf o) = .forbidden required r.permissions) := by
  intro required o
  cases o with
  | none =>
    constructor
    · simp [checkApiKeyPermissions, attachedOf, isTruthyAtt]
    · intro r h
      exact absurd h (by simp)
  | some r =>
    rw [show attachedOf (some r) = .record r from rfl, checkPerms_record]
    constructor
    · by_cases hreq : required = []
      · subst hreq
        simp
      · have hie : required.isEmpty = false := by
          simpa [List.isEmpty_iff] using hreq
        by_cases hall : required.all (fun p => r.permissions.contains p) = true
        · simp only [hie, Bool.false_eq_true, if_false, hall, if_true]
          constructor
          · intro _
            exact Or.inr (Or.inr ⟨r, rfl, fun p hp => by
              simpa using List.all_eq_true.mp hall p hp⟩)
          · intro _
            trivial
        · have hall' : required.all (fun p => r.permissions.contains p) = false := by
            simpa using hall
          simp only [hie, Bool.false_eq_true, if_false, hall', if_false]
          constructor
          · intro h
            exact absurd h (by simp)
          · rintro (h | h | ⟨r', hr', hmem⟩)
            · exact absurd h (by simp)
            · exact absurd h hreq
            · have hrr : r = r' := by injection hr'
              subst hrr
              refine absurd (List.all_eq_true.mpr fun p hp => ?_) hall
              simpa using hmem p hp
    · intro r' hr' hne
      have hrr : r = r' := by injection hr'
      subst hrr
      by_cases h1 : required.isEmpty = true
      · exact absurd (by rw [if_pos h1]) hne
      · by_cases h2 : (required.all fun p => r.permissions.contains p) = true
        · exact absurd (by rw [if_neg h1, if_pos h2]) hne
        · rw [if_neg h1, if_neg h2]

/-- C4 witness: the spec's end-to-end scenario 1 — a key holding only
`auth` checked against `["auth", "database"]` is denied with
`current = ["auth"]`. -/
theorem checkApiKeyPermissions_spec_witness :
    checkApiKeyPermissions ["auth", "database"] (attachedOf (some r1)) =
      .forbidden ["auth", "database"] ["auth"] := by
  have h := (checkApiKeyPermissions_spec ["auth", "database"] (some r1)).2 r1 rfl (by decide)
  simpa using h

/-! ## C5 — one usage record iff key and project were resolved -/

/-- C5: at response completion, both recorder variants submit exactly
one usage document when both `req.apiKey` and `req.projectId` are
resolved (truthy) on the context, and none at all when no key is
attached. -/
theorem trackUsage_record_count :
    ∀ (att : Attached) (pid : Option Nat) (path method : String) (status rt : Nat)
      (now : Int) (ua ip : String) (reqSz respSz : Nat) (custom : List (String × String)),
      ((isTruthyAtt att && pid.isSome) = true →
        (trackUsage att pid path method status rt now ua ip reqSz respSz).length = 1 ∧
        (trackUsageWithMetadata custom att pid path method status rt now ua ip
          reqSz respSz).length = 1) ∧
      (isTruthyAtt att = false →
        trackUsage att pid path method status rt now ua ip reqSz respSz = [] ∧
        trackUsageWithMetadata custom att pid path method status rt now ua ip reqSz respSz = []) := by
  intro att pid path method status rt now ua ip reqSz respSz custom
  constructor
  · intro h
    constructor <;> simp [trackUsage, trackUsageWithMetadata, h]
  · intro h
    constructor <;> simp [trackUsage, trackUsageWithMetadata, h]

/-- C5 witness: one record for an authenticated request, none for an
anonymous one. -/
theorem trackUsage_record_count_witness :
    (trackUsage (.record r1) (some 7) "/x" "GET" 200 3 0 "" "" 0 0).length = 1 ∧
    trackUsage .nothing (some 7) "/x" "GET" 200 3 0 "" "" 0 0 = [] := by
  exact ⟨((trackUsage_record_count (.record r1) (some 7) "/x" "GET" 200 3 0 "" "" 0 0 []).1
      (by decide)).1,
    ((trackUsage_record_count .nothing (some 7) "/x" "GET" 200 3 0 "" "" 0 0 []).2
      (by decide)).1⟩

/-! ## C10 — the weak gate's attachment breaks the permission gate -/

/-- C10: whenever the weak gate `validateApiKey` let a request through
(attaching the raw secret string), running the permission gate with any
non-empty required list answers 500 "Permission check error" — the
`req.apiKey.permissions.includes` call throws on a string — so it
neither allows the request nor produces the specified 403 denial. -/
theorem weakGate_permGate_not_composable :
    ∀ (k p : String) (required : List String),
      validateApiKey { xApiKey := some k, xProjectId := some p } = .next k p →
      required ≠ [] →
      checkApiKeyPermissions required (.rawKey k) = .serverError 500 "Permission check error" ∧
      checkApiKeyPermissions required (.rawKey k) ≠ .next ∧
      ∀ cur : List String, checkApiKeyPermissions required (.rawKey k) ≠ .forbidden required cur := by
  intro k p required hval hreq
  have hk : k ≠ "" := by
    intro h
    subst h
    simp [validateApiKey, isTruthyStr] at hval
  have hie : required.isEmpty = false := by
    simpa [List.isEmpty_iff] using hreq
  have hmain : checkApiKeyPermissions required (.rawKey k) =
      .serverError 500 "Permission check error" := by
    simp [checkApiKeyPermissions, isTruthyAtt, hk, hie]
  exact ⟨hmain, by simp [hmain], fun cur => by simp [hmain]⟩

/-- C10 witness: the concrete well-formed secret `k0` attached by the
weak gate, checked against `["auth"]`. -/
theorem weakGate_permGate_not_composable_witness :
    checkApiKeyPermissions ["auth"] (.rawKey k0) = .serverError 500 "Permission check error" := by
  exact (weakGate_permGate_not_composable k0 p0 ["auth"] (by decide) (by decide)).1

/-! ## C6 — generated secrets versus the format validator -/

theorem hexDigit_isLowerHex : ∀ n, n < 16 → isLowerHex (hexDigit n) = true := by
  decide

theorem byteToHex_hex (b : Nat) : ∀ c ∈ byteToHex b, isLowerHex c = true := by
  intro c hc
  simp only [byteToHex, List.mem_cons, List.not_mem_nil, or_false] at hc
  rcases hc with rfl | rfl
  · exact hexDigit_isLowerHex _ (Nat.mod_lt _ (by norm_num))
  · exact hexDigit_isLowerHex _ (Nat.mod_lt _ (by norm_num))

theorem bytesToHex_length (bs : List Nat) : (bytesToHex bs).length = 2 * bs.length := by
  induction bs with
  | nil => rfl
  | cons b bs ih =>
    simp only [bytesToHex, List.map_cons, List.flatten_cons, List.length_append,
      List.length_cons] at *
    simp only [byteToHex, List.length_cons, List.length_nil]
    omega

theorem bytesToHex_hex (bs : List Nat) : ∀ c ∈ bytesToHex bs, isLowerHex c = true := by
  intro c hc
  simp only [bytesToHex, List.mem_flatten, List.mem_map] at hc
  obtain ⟨l, ⟨b, _, rfl⟩, hcl⟩ := hc
  exact byteToHex_hex b c hcl

theorem generate_live_data (bytes : List Nat) :
    (generateApiKey "pk_live" bytes).data = "pk_live_".data ++ bytesToHex bytes := by
  have h : ("pk_live" ++ "_" : String) = "pk_live_" := by decide
  calc (generateApiKey "pk_live" bytes).data
      = (("pk_live" ++ "_") ++ String.mk (bytesToHex bytes)).data := rfl
    _ = ("pk_live_" ++ String.mk (bytesToHex bytes)).data := by rw [h]
    _ = "pk_live_".data ++ bytesToHex bytes := by simp [String.data_append]

theorem generate_test_data (bytes : List Nat) :
    (generateApiKey "pk_test" bytes).data = "pk_test_".data ++ bytesToHex bytes := by
  have h : ("pk_test" ++ "_" : String) = "pk_test_" := by decide
  calc (generateApiKey "pk_test" bytes).data
      = (("pk_test" ++ "_") ++ String.mk (bytesToHex bytes)).data := rfl
    _ = ("pk_test_" ++ String.mk (bytesToHex bytes)).data := by rw [h]
    _ = "pk_test_".data ++ bytesToHex bytes := by simp [String.data_append]

theorem jsStartsWith_of_data {s p : String} {t : List Char} (h : s.data = p.data ++ t) :
    jsStartsWith s p = true := by
  unfold jsStartsWith
  rw [h, List.take_left]
  simp

theorem jsStartsWith_ne_of_data {s p q : String} {t : List Char} (h : s.data = p.data ++ t)
    (hlen : q.data.length = p.data.length) (hne : p.data ≠ q.data) :
    jsStartsWith s q = false := by
  unfold jsStartsWith
  rw [hlen, h, List.take_left]
  simp [hne]

theorem jsDrop_generate_live (bytes : List Nat) :
    (jsDrop (generateApiKey "pk_live" bytes) 8).data = bytesToHex bytes := by
  show (generateApiKey "pk_live" bytes).data.drop 8 = bytesToHex bytes
  have h8 : ("pk_live_" : String).data.length = 8 := by decide
  rw [generate_live_data, ← h8]
  exact List.drop_left _ _

theorem jsDrop_generate_test (bytes : List Nat) :
    (jsDrop (generateApiKey "pk_test" bytes) 8).data = bytesToHex bytes := by
  show (generateApiKey "pk_test" bytes).data.drop 8 = bytesToHex bytes
  have h8 : ("pk_test_" : String).data.length = 8 := by decide
  rw [generate_test_data, ← h8]
  exact List.drop_left _ _

/-- C6 counterexample.  The claim quantifies over every byte length
`n`; the validator's regexp demands exactly 64 hex characters, so a
secret generated from 16 random bytes (32 hex characters) is rejected
and yields no env tag. -/
theorem generateApiKey_length16_invalid_cex :
    (List.replicate 16 0).length = 16 ∧
    isValidApiKeyFormat (generateApiKey "pk_test" (List.replicate 16 0)) = false ∧
    getApiKeyEnvTag (generateApiKey "pk_test" (List.replicate 16 0)) = none := by
  decide

/-- C6 amended: for env tag live or test and byte length exactly 32
(the source's default), the generated secret satisfies
`isValidApiKeyFormat` and the env-tag extraction returns the tag. -/
theorem generateApiKey_default_length_valid :
    ∀ bytes : List Nat, bytes.length = 32 →
      (isValidApiKeyFormat (generateApiKey "pk_live" bytes) = true ∧
       getApiKeyEnvTag (generateApiKey "pk_live" bytes) = some "live") ∧
      (isValidApiKeyFormat (generateApiKey "pk_test" bytes) = true ∧
       getApiKeyEnvTag (generateApiKey "pk_test" bytes) = some "test") := by
  intro bytes h32
  have hlenhex : (bytesToHex bytes).length = 64 := by
    rw [bytesToHex_length, h32]
  have hlive : jsStartsWith (generateApiKey "pk_live" bytes) "pk_live_" = true :=
    jsStartsWith_of_data (generate_live_data bytes)
  have htest : jsStartsWith (generateApiKey "pk_test" bytes) "pk_test_" = true :=
    jsStartsWith_of_data (generate_test_data bytes)
  have htestnotlive : jsStartsWith (generateApiKey "pk_test" bytes) "pk_live_" = false :=
    jsStartsWith_ne_of_data (generate_test_data bytes) (by decide) (by decide)
  have hvlive : isValidApiKeyFormat (generateApiKey "pk_live" bytes) = true := by
    simp only [isValidApiKeyFormat, hlive, Bool.true_or, Bool.true_and]
    rw [jsDrop_generate_live, hlenhex]
    simp [List.all_eq_true]
    exact bytesToHex_hex bytes
  have hvtest : isValidApiKeyFormat (generateApiKey "pk_test" bytes) = true := by
    simp only [isValidApiKeyFormat, htest, Bool.or_true, Bool.true_and]
    rw [jsDrop_generate_test, hlenhex]
    simp [List.all_eq_true]
    exact bytesToHex_hex bytes
  refine ⟨⟨hvlive, ?_⟩, hvtest, ?_⟩
  · simp [getApiKeyEnvTag, hvlive, hlive]
  · simp [getApiKeyEnvTag, hvtest, htestnotlive]

/-- C6 witness: the amended theorem applied at a concrete 32-byte
draw. -/
theorem generateApiKey_default_length_valid_witness :
    isValidApiKeyFormat (generateApiKey "pk_live" (List.replicate 32 171)) = true ∧
    getApiKeyEnvTag (generateApiKey "pk_test" (List.replicate 32 171)) = some "test" := by
  exact ⟨((generateApiKey_default_length_valid (List.replicate 32 171) (by decide)).1).1,
    ((generateApiKey_default_length_valid (List.replicate 32 171) (by decide)).2).2⟩

/-! ## C7 — masking -/

/-- C7 counterexample.  The claim says the mask output differs from the
input for every secret of length at least 12; the 15-character string
whose characters 8..10 are already the ellipsis marker is a fixed point
of `maskApiKey`. -/
theorem maskApiKey_fixed_point_cex :
    ("abcdefgh...wxyz" : String).data.length = 15 ∧
    maskApiKey "abcdefgh...wxyz" = "abcdefgh...wxyz" := by
  decide

/-- C7 amended: secrets shorter than 12 characters mask to the fixed
placeholder; a secret of length at least 12 that is not a fixed point
of the transform (length 15 with the ellipsis already at positions
8..10 — in particular any well-formed 72-character key secret) masks to
something different from itself; and masking is not injective (a
concrete collision), so the input cannot be recovered from the output
alone. -/
theorem maskApiKey_amended :
    (∀ s : String, s.data.length < 12 → maskApiKey s = "***") ∧
    (∀ s : String, 12 ≤ s.data.length →
      ¬(s.data.length = 15 ∧ (s.data.drop 8).take 3 = ['.', '.', '.']) →
      maskApiKey s ≠ s) ∧
    (maskApiKey "0123456789abc" = maskApiKey "01234567X9abc" ∧
      ("0123456789abc" : String) ≠ "01234567X9abc" ∧
      12 ≤ ("0123456789abc" : String).data.length) := by
  refine ⟨?_, ?_, by decide⟩
  · intro s h
    simp only [maskApiKey]
    rw [if_pos h]
  · intro s h12 hnot heq
    have hd : s.data.take 8 ++ ['.', '.', '.'] ++ s.data.drop (s.data.length - 4) = s.data := by
      have hc := congrArg String.data heq
      simp only [maskApiKey] at hc
      rw [if_neg (by omega)] at hc
      exact hc
    have hlen15 : s.data.length = 15 := by
      have hlen := congrArg List.length hd
      simp only [List.length_append, List.length_take, List.length_drop,
        List.length_cons, List.length_nil] at hlen
      omega
    have h8 : (s.data.take 8).length = 8 := by
      simp only [List.length_take]
      omega
    have hdp : s.data.drop 8 = ['.', '.', '.'] ++ s.data.drop (s.data.length - 4) := by
      have h1 : s.data = s.data.take 8 ++ (['.', '.', '.'] ++ s.data.drop (s.data.length - 4)) := by
        rw [← List.append_assoc, hd]
      have h2 := List.drop_left (s.data.take 8)
        (['.', '.', '.'] ++ s.data.drop (s.data.length - 4))
      rw [h8] at h2
      conv_lhs => rw [h1]
      exact h2
    have hmid : (s.data.drop 8).take 3 = ['.', '.', '.'] := by
      rw [hdp]
      simp
    exact hnot ⟨hlen15, hmid⟩

/-- C7 witness: the amended theorem applied at a short string and at
the concrete well-formed secret `k0`. -/
theorem maskApiKey_amended_witness :
    maskApiKey "short" = "***" ∧ maskApiKey k0 ≠ k0 := by
  exact ⟨maskApiKey_amended.1 "short" (by decide),
    maskApiKey_amended.2.1 k0 (by decide) (by decide)⟩

/-! ## C8 — the stats window and recent activity -/

theorem mem_insertByTs {x r : UsageEntry} {l : List UsageEntry} :
    x ∈ insertByTs r l ↔ x = r ∨ x ∈ l := by
  induction l with
  | nil => simp [insertByTs]
  | cons a l ih =>
    simp only [insertByTs]
    by_cases hc : a.timestamp ≤ r.timestamp
    · simp [hc]
    · simp only [if_neg hc, List.mem_cons, ih]
      tauto

theorem mem_sortByTsDesc {x : UsageEntry} {l : List UsageEntry} :
    x ∈ sortByTsDesc l ↔ x ∈ l := by
  induction l with
  | nil => simp [sortByTsDesc]
  | cons a l ih =>
    simp only [sortByTsDesc, mem_insertByTs, ih, List.mem_cons]

theorem pairwise_insertByTs {r : UsageEntry} {l : List UsageEntry}
    (h : l.Pairwise (fun a b => b.timestamp ≤ a.timestamp)) :
    (insertByTs r l).Pairwise (fun a b => b.timestamp ≤ a.timestamp) := by
  induction l with
  | nil => simp [insertByTs]
  | cons a l ih =>
    rcases List.pairwise_cons.mp h with ⟨ha, hl⟩
    simp only [insertByTs]
    by_cases hc : a.timestamp ≤ r.timestamp
    · rw [if_pos hc]
      refine List.pairwise_cons.mpr ⟨?_, h⟩
      intro y hy
      rcases List.mem_cons.mp hy with rfl | hy
      · exact hc
      · exact le_trans (ha y hy) hc
    · rw [if_neg hc]
      refine List.pairwise_cons.mpr ⟨?_, ih hl⟩
      intro y hy
      rcases mem_insertByTs.mp hy with rfl | hy
      · exact le_of_not_le hc
      · exact ha y hy

theorem pairwise_sortByTsDesc (l : List UsageEntry) :
    (sortByTsDesc l).Pairwise (fun a b => b.timestamp ≤ a.timestamp) := by
  induction l with
  | nil => simp [sortByTsDesc]
  | cons a l ih => exact pairwise_insertByTs ih

theorem mem_of_mem_recentActivity {r : UsageEntry} {logs : List UsageEntry} {pid : Nat}
    (h : r ∈ recentActivity logs pid) : r ∈ logs ∧ r.projectId = pid := by
  simp only [recentActivity] at h
  have h1 := List.mem_of_mem_take h
  have h2 := mem_sortByTsDesc.mp h1
  have h3 := List.mem_filter.mp h2
  exact ⟨h3.1, by simpa using h3.2⟩

/-- C8 counterexample.  The claim says every reported statistic,
including the most recent 10 records, counts only records with
`now - period ≤ timestamp < now`.  With one stored record 100 days old
and `period = 30d`: `totalCalls` is 0 (the record is outside the
window) yet `recentActivity` still reports that record — the
recent-records query has no timestamp condition at all. -/
theorem recentActivity_outside_window_cex :
    recentActivity [eOld] 1 = [eOld] ∧
    eOld.timestamp < periodStart "30d" 8640000000 ∧
    statsTotalCalls [eOld] 1 (periodStart "30d" 8640000000) = 0 := by
  decide

/-- C8 amended: the aggregate count is over records with
`timestamp ≥ now - period` and the requested project only (there is no
upper bound excluding future timestamps), while `recentActivity`
returns at most 10 of the project's records, newest first, with no
period restriction whatsoever. -/
theorem usageStats_window_amended :
    ∀ (logs : List UsageEntry) (pid : Nat) (period : String) (now : Int),
      statsTotalCalls logs pid (periodStart period now) =
        (logs.filter fun r =>
          decide (r.projectId = pid ∧ periodStart period now ≤ r.timestamp)).length ∧
      (∀ r ∈ recentActivity logs pid, r ∈ logs ∧ r.projectId = pid) ∧
      (recentActivity logs pid).length ≤ 10 ∧
      (recentActivity logs pid).Pairwise (fun a b => b.timestamp ≤ a.timestamp) := by
  intro logs pid period now
  refine ⟨?_, ?_, ?_, ?_⟩
  · unfold statsTotalCalls
    congr 1
    apply List.filter_congr
    intro x _
    by_cases h : x.projectId = pid
    · simp [h]
    · simp [h]
  · intro r hr
    exact mem_of_mem_recentActivity hr
  · exact List.length_take_le 10 _
  · exact (pairwise_sortByTsDesc _).sublist (List.take_sublist 10 _)

/-- C8 witness: the amended theorem applied at the concrete
one-element log and 30-day window. -/
theorem usageStats_window_amended_witness :
    statsTotalCalls [eOld] 1 (periodStart "30d" 8640000000) =
      ([eOld].filter fun r =>
        decide (r.projectId = 1 ∧ periodStart "30d" 8640000000 ≤ r.timestamp)).length ∧
    (recentActivity [eOld] 1).length ≤ 10 := by
  have h := usageStats_window_amended [eOld] 1 "30d" 8640000000
  exact ⟨h.1, h.2.2.1⟩

/-! ## C9 — 90-day store-level retention -/

/-- C9: the schema's TTL metadata equals 90 days, and under the
store-expiry semantics a record whose 90-day expiry instant is at least
`grace` in the past is absent from the visible store and hence from the
recent-records aggregation over it. -/
theorem usageLog_ttl_expiry :
    ∀ (logs : List UsageEntry) (grace now : Int) (r : UsageEntry) (pid : Nat),
      r.timestamp + (usageLogTTLSeconds : Int) * 1000 + grace ≤ now →
      (usageLogTTLSeconds : Int) * 1000 = 90 * 86400000 ∧
      r ∉ visibleAt grace now logs ∧
      r ∉ recentActivity (visibleAt grace now logs) pid := by
  intro logs grace now r pid h
  have hvis : r ∉ visibleAt grace now logs := by
    intro hmem
    have hcond := (List.mem_filter.mp hmem).2
    simp only [decide_eq_true_eq] at hcond
    omega
  refine ⟨by norm_num [usageLogTTLSeconds], hvis, ?_⟩
  intro hmem
  exact hvis (mem_of_mem_recentActivity hmem).1

/-- C9 witness: the record `eOld` (timestamp 0) is gone at
`now = 7776000000` ms (exactly 90 days later) with zero sweep lag. -/
theorem usageLog_ttl_expiry_witness :
    eOld ∉ visibleAt 0 7776000000 [eOld] ∧
    eOld ∉ recentActivity (visibleAt 0 7776000000 [eOld]) 1 := by
  have h := usageLog_ttl_expiry [eOld] 0 7776000000 eOld 1 (by decide)
  exact ⟨h.2.1, h.2.2⟩

end HackCBS
